import Mathlib

/-!
# Verification of the AI competitive-intelligence blog scraper

Shallow embedding of `src/scraper.py` (class `BlogScraper`), faithful to the
source code.  Python `datetime` values are modelled as a record of `Nat`
fields, `datetime.strptime` is modelled per format pattern (the nine patterns
of `_parse_date`, following CPython's `_strptime` regular expressions),
BeautifulSoup elements are modelled as an HTML tree, and `urllib.parse.urljoin`
is modelled for hierarchical (`scheme://`) URLs.  Machine integers play no
role (Python ints are unbounded); all definitions are executable.
-/

namespace Scraper

/-! ## Python string primitives -/

/-- Python's `\s` / `str.strip` whitespace class: space, tab, newline,
carriage return, vertical tab, form feed. -/
def pyIsSpace (c : Char) : Bool :=
  c = ' ' || c = '\t' || c = '\n' || c = '\r' || c = '\x0b' || c = '\x0c'

/-- Python `str.strip()`: drop leading and trailing whitespace. -/
def pyStrip (s : String) : String :=
  ⟨((s.data.dropWhile pyIsSpace).reverse.dropWhile pyIsSpace).reverse⟩

/-- ASCII lower-casing of one character (Python `str.lower` on ASCII). -/
def lowerChar (c : Char) : Char :=
  if 65 ≤ c.toNat ∧ c.toNat ≤ 90 then Char.ofNat (c.toNat + 32) else c

/-- ASCII upper-casing of one character (Python `str.upper` on ASCII). -/
def upperChar (c : Char) : Char :=
  if 97 ≤ c.toNat ∧ c.toNat ≤ 122 then Char.ofNat (c.toNat - 32) else c

/-- ASCII lower-casing of a string. -/
def lowerStr (s : String) : String := ⟨s.data.map lowerChar⟩

/-- `re.sub(r'\s+', ' ', ·)`: collapse every run of whitespace to one space.
The flag records whether the previous character was whitespace. -/
def collapseWsGo : Bool → List Char → List Char
  | _, [] => []
  | inWs, c :: rest =>
    if pyIsSpace c then
      (if inWs then [] else [' ']) ++ collapseWsGo true rest
    else c :: collapseWsGo false rest

/-- Whitespace collapsing on strings. -/
def collapseWs (s : String) : String := ⟨collapseWsGo false s.data⟩

/-- Python `str.title()` on ASCII: upper-case each letter that follows a
non-letter, lower-case each letter that follows a letter.  The flag records
whether the previous character was a letter. -/
def titleCaseGo : Bool → List Char → List Char
  | _, [] => []
  | prevAlpha, c :: rest =>
    if c.isAlpha then
      (if prevAlpha then lowerChar c else upperChar c) :: titleCaseGo true rest
    else c :: titleCaseGo false rest

/-- Python `str.title()`. -/
def titleCase (s : String) : String := ⟨titleCaseGo false s.data⟩

/-- Left-to-right non-overlapping replacement of a non-empty pattern; the
fuel (initially the input length) makes the recursion structural, and one
character is always consumed per step. -/
def pyReplaceGo (pat rep : List Char) : Nat → List Char → List Char
  | _, [] => []
  | 0, l => l
  | fuel + 1, c :: rest =>
    if pat.isPrefixOf (c :: rest) then
      rep ++ pyReplaceGo pat rep fuel (rest.drop (pat.length - 1))
    else c :: pyReplaceGo pat rep fuel rest

/-- Python `str.replace(pat, rep)` (all occurrences, left to right). -/
def pyReplace (s pat rep : String) : String :=
  if pat = "" then s else ⟨pyReplaceGo pat.data rep.data s.data.length s.data⟩

/-- Python slicing `s[:n]` (by characters). -/
def strTake (s : String) (n : Nat) : String := ⟨s.data.take n⟩

/-! ## Dates (`datetime`) -/

/-- A Python `datetime.datetime` value as produced by `strptime` on the
scraper's nine format patterns (microseconds are always zero there). -/
structure DateTime where
  year : Nat
  month : Nat
  day : Nat
  hour : Nat
  minute : Nat
  second : Nat
deriving DecidableEq, Repr

/-- Python `datetime` comparison `a <= b`: lexicographic on the fields. -/
def DateTime.le (a b : DateTime) : Bool :=
  decide (a.year < b.year ∨ (a.year = b.year ∧
    (a.month < b.month ∨ (a.month = b.month ∧
      (a.day < b.day ∨ (a.day = b.day ∧
        (a.hour < b.hour ∨ (a.hour = b.hour ∧
          (a.minute < b.minute ∨ (a.minute = b.minute ∧
            a.second ≤ b.second))))))))))

/-- Gregorian leap year, as validated by the `datetime` constructor. -/
def isLeap (y : Nat) : Bool := y % 4 = 0 && (y % 100 ≠ 0 || y % 400 = 0)

/-- Days in a month, as validated by the `datetime` constructor. -/
def daysInMonth (y m : Nat) : Nat :=
  if m = 1 then 31 else
  if m = 2 then (if isLeap y then 29 else 28) else
  if m = 3 then 31 else
  if m = 4 then 30 else
  if m = 5 then 31 else
  if m = 6 then 30 else
  if m = 7 then 31 else
  if m = 8 then 31 else
  if m = 9 then 30 else
  if m = 10 then 31 else
  if m = 11 then 30 else
  if m = 12 then 31 else 0

/-- The `datetime` constructor invoked at the end of `strptime`: it raises
`ValueError` (modelled as `none`) unless the fields form a real date. -/
def mkDate (y m d hh mi ss : Nat) : Option DateTime :=
  if 1 ≤ y ∧ y ≤ 9999 ∧ 1 ≤ m ∧ m ≤ 12 ∧ 1 ≤ d ∧ d ≤ daysInMonth y m then
    some ⟨y, m, d, hh, mi, ss⟩
  else none

/-! ## `datetime.strptime` on the nine patterns

CPython's `_strptime` compiles each directive to a regular expression
(matched case-insensitively) and requires the whole string to be consumed:
`%Y` is exactly four digits, the two-digit numeric directives accept one or
two digits within their range preferring two (`%m` is `1[0-2]|0[1-9]|[1-9]`,
and so on), a literal space matches one or more whitespace characters, and
month names match case-insensitively.  Each parsing step below consumes a
prefix of the character list and returns the remainder. -/

/-- An ASCII decimal digit (the regex `\d` over the scraper's inputs). -/
def isDigitChar (c : Char) : Bool := 48 ≤ c.toNat && c.toNat ≤ 57

/-- Numeric value of a digit character. -/
def digitVal (c : Char) : Nat := c.toNat - 48

/-- One decimal digit. -/
def parseDigit : List Char → Option (Nat × List Char)
  | c :: rest => if isDigitChar c then some (digitVal c, rest) else none
  | [] => none

/-- `%Y`: exactly four digits. -/
def parseYear4 (l : List Char) : Option (Nat × List Char) := do
  let (a, l) ← parseDigit l
  let (b, l) ← parseDigit l
  let (c, l) ← parseDigit l
  let (d, l) ← parseDigit l
  pure (((a * 10 + b) * 10 + c) * 10 + d, l)

/-- A two-digit-preferring numeric directive with value range `[lo, hi]`
(the shape of `%m`, `%d`, `%H`, `%M`, `%S` in `_strptime`): two digits when
their value is in range, else one digit when its value is in range. -/
def parseNum2 (lo hi : Nat) : List Char → Option (Nat × List Char)
  | c1 :: c2 :: rest =>
    if isDigitChar c1 ∧ isDigitChar c2 ∧ lo ≤ digitVal c1 * 10 + digitVal c2 ∧
        digitVal c1 * 10 + digitVal c2 ≤ hi then
      some (digitVal c1 * 10 + digitVal c2, rest)
    else if isDigitChar c1 ∧ lo ≤ digitVal c1 ∧ digitVal c1 ≤ hi then
      some (digitVal c1, c2 :: rest)
    else none
  | [c1] =>
    if isDigitChar c1 ∧ lo ≤ digitVal c1 ∧ digitVal c1 ≤ hi then
      some (digitVal c1, [])
    else none
  | [] => none

/-- An exact literal character (the non-letter literals `-`, `/`, `,`, `:`). -/
def parseLit (c : Char) : List Char → Option (List Char)
  | x :: rest => if x = c then some rest else none
  | [] => none

/-- A literal letter, matched case-insensitively (`T`, `Z`): `_strptime`
compiles its pattern with `re.IGNORECASE`. -/
def parseCI (c : Char) : List Char → Option (List Char)
  | x :: rest => if lowerChar x = lowerChar c then some rest else none
  | [] => none

/-- A literal space in the format: one or more whitespace characters. -/
def parseWs : List Char → Option (List Char)
  | x :: rest => if pyIsSpace x then some (rest.dropWhile pyIsSpace) else none
  | [] => none

/-- Case-insensitive match of a (lower-case) name against a prefix of the
input; returns the remainder. -/
def matchCI : List Char → List Char → Option (List Char)
  | [], l => some l
  | p :: ps, x :: xs => if lowerChar x = p then matchCI ps xs else none
  | _ :: _, [] => none

/-- Full English month names (`%B`), lower-case; position = month number. -/
def monthNamesFull : List (List Char) :=
  [['j','a','n','u','a','r','y'],
   ['f','e','b','r','u','a','r','y'],
   ['m','a','r','c','h'],
   ['a','p','r','i','l'],
   ['m','a','y'],
   ['j','u','n','e'],
   ['j','u','l','y'],
   ['a','u','g','u','s','t'],
   ['s','e','p','t','e','m','b','e','r'],
   ['o','c','t','o','b','e','r'],
   ['n','o','v','e','m','b','e','r'],
   ['d','e','c','e','m','b','e','r']]

/-- Abbreviated English month names (`%b`), lower-case. -/
def monthNamesAbbr : List (List Char) :=
  [['j','a','n'], ['f','e','b'], ['m','a','r'], ['a','p','r'],
   ['m','a','y'], ['j','u','n'], ['j','u','l'], ['a','u','g'],
   ['s','e','p'], ['o','c','t'], ['n','o','v'], ['d','e','c']]

/-- Try the month names in order, numbering from `i`. -/
def parseMonthFrom : Nat → List (List Char) → List Char → Option (Nat × List Char)
  | _, [], _ => none
  | i, n :: ns, l =>
    match matchCI n l with
    | some rest => some (i, rest)
    | none => parseMonthFrom (i + 1) ns l

/-- `%B`: a full month name. -/
def parseMonthFull (l : List Char) : Option (Nat × List Char) :=
  parseMonthFrom 1 monthNamesFull l

/-- `%b`: an abbreviated month name. -/
def parseMonthAbbr (l : List Char) : Option (Nat × List Char) :=
  parseMonthFrom 1 monthNamesAbbr l

/-- `strptime` fails unless the whole string was consumed. -/
def expectEnd (l : List Char) : Option Unit :=
  if l.isEmpty then some () else none

/-- The nine format patterns of `_parse_date`, in source order. -/
inductive Fmt where
  | ymd       -- '%Y-%m-%d'
  | ymdHMS    -- '%Y-%m-%dT%H:%M:%S'
  | ymdHMSZ   -- '%Y-%m-%dT%H:%M:%SZ'
  | BdY       -- '%B %d, %Y'
  | bdY       -- '%b %d, %Y'
  | dBY       -- '%d %B %Y'
  | dbY       -- '%d %b %Y'
  | mdY       -- '%m/%d/%Y'
  | dmY       -- '%d/%m/%Y'
deriving DecidableEq, Repr

/-- `datetime.strptime(s, fmt)` for the nine patterns; `none` models the
`ValueError` that `_parse_date` catches. -/
def strptime (s : String) (f : Fmt) : Option DateTime :=
  match f with
  | .ymd => do
    let (y, l) ← parseYear4 s.data
    let l ← parseLit '-' l
    let (m, l) ← parseNum2 1 12 l
    let l ← parseLit '-' l
    let (d, l) ← parseNum2 1 31 l
    let _ ← expectEnd l
    mkDate y m d 0 0 0
  | .ymdHMS => do
    let (y, l) ← parseYear4 s.data
    let l ← parseLit '-' l
    let (m, l) ← parseNum2 1 12 l
    let l ← parseLit '-' l
    let (d, l) ← parseNum2 1 31 l
    let l ← parseCI 'T' l
    let (hh, l) ← parseNum2 0 23 l
    let l ← parseLit ':' l
    let (mi, l) ← parseNum2 0 59 l
    let l ← parseLit ':' l
    let (ss, l) ← parseNum2 0 59 l
    let _ ← expectEnd l
    mkDate y m d hh mi ss
  | .ymdHMSZ => do
    let (y, l) ← parseYear4 s.data
    let l ← parseLit '-' l
    let (m, l) ← parseNum2 1 12 l
    let l ← parseLit '-' l
    let (d, l) ← parseNum2 1 31 l
    let l ← parseCI 'T' l
    let (hh, l) ← parseNum2 0 23 l
    let l ← parseLit ':' l
    let (mi, l) ← parseNum2 0 59 l
    let l ← parseLit ':' l
    let (ss, l) ← parseNum2 0 59 l
    let l ← parseCI 'Z' l
    let _ ← expectEnd l
    mkDate y m d hh mi ss
  | .BdY => do
    let (m, l) ← parseMonthFull s.data
    let l ← parseWs l
    let (d, l) ← parseNum2 1 31 l
    let l ← parseLit ',' l
    let l ← parseWs l
    let (y, l) ← parseYear4 l
    let _ ← expectEnd l
    mkDate y m d 0 0 0
  | .bdY => do
    let (m, l) ← parseMonthAbbr s.data
    let l ← parseWs l
    let (d, l) ← parseNum2 1 31 l
    let l ← parseLit ',' l
    let l ← parseWs l
    let (y, l) ← parseYear4 l
    let _ ← expectEnd l
    mkDate y m d 0 0 0
  | .dBY => do
    let (d, l) ← parseNum2 1 31 s.data
    let l ← parseWs l
    let (m, l) ← parseMonthFull l
    let l ← parseWs l
    let (y, l) ← parseYear4 l
    let _ ← expectEnd l
    mkDate y m d 0 0 0
  | .dbY => do
    let (d, l) ← parseNum2 1 31 s.data
    let l ← parseWs l
    let (m, l) ← parseMonthAbbr l
    let l ← parseWs l
    let (y, l) ← parseYear4 l
    let _ ← expectEnd l
    mkDate y m d 0 0 0
  | .mdY => do
    let (m, l) ← parseNum2 1 12 s.data
    let l ← parseLit '/' l
    let (d, l) ← parseNum2 1 31 l
    let l ← parseLit '/' l
    let (y, l) ← parseYear4 l
    let _ ← expectEnd l
    mkDate y m d 0 0 0
  | .dmY => do
    let (d, l) ← parseNum2 1 31 s.data
    let l ← parseLit '/' l
    let (m, l) ← parseNum2 1 12 l
    let l ← parseLit '/' l
    let (y, l) ← parseYear4 l
    let _ ← expectEnd l
    mkDate y m d 0 0 0

/-- The `date_formats` list of `_parse_date`, in source order. -/
def dateFormats : List Fmt :=
  [.ymd, .ymdHMS, .ymdHMSZ, .BdY, .bdY, .dBY, .dbY, .mdY, .dmY]

/-- The `for fmt in date_formats: try ... except ValueError: continue` loop. -/
def tryFormats (s : String) : List Fmt → Option DateTime
  | [] => none
  | f :: rest =>
    match strptime s f with
    | some d => some d
    | none => tryFormats s rest

/-- `BlogScraper._parse_date`: empty input returns `None`; otherwise the
input is stripped and the formats are tried in order. -/
def parse_date (s : String) : Option DateTime :=
  if s = "" then none else tryFormats (pyStrip s) dateFormats

/-- `BlogScraper._is_recent_post`: posts without a date are always recent;
dated posts are recent iff `post_date >= cutoff` (boundary inclusive). -/
def is_recent_post (post_date : Option DateTime) (cutoff : DateTime) : Bool :=
  match post_date with
  | none => true
  | some d => cutoff.le d

/-! ## HTML elements (BeautifulSoup)

An element is a tag with attributes and children, or a text node.  The
`class` attribute is kept as its literal string; the scraper's class
patterns (`post`, `date`, `summary`, ...) contain no whitespace, so matching
them as substrings of the whole attribute string coincides with
BeautifulSoup's per-class regex search. -/

mutual
inductive Html where
  | tag (name : String) (attrs : List (String × String)) (children : HtmlList)
  | text (s : String)
inductive HtmlList where
  | nil
  | cons (head : Html) (tail : HtmlList)
end

/-- Build an `HtmlList` from a `List Html`. -/
def HtmlList.ofList : List Html → HtmlList
  | [] => .nil
  | h :: t => .cons h (HtmlList.ofList t)

/-- Element constructor taking its children as an ordinary list. -/
def Html.el (name : String) (attrs : List (String × String))
    (children : List Html) : Html :=
  .tag name attrs (HtmlList.ofList children)

/-- The tag name (text nodes have none). -/
def Html.tagName : Html → String
  | .tag n _ _ => n
  | .text _ => ""

/-- Attribute lookup, `element.get(key)` with absent = `none`. -/
def Html.attr : Html → String → Option String
  | .tag _ attrs _, k => (attrs.find? (fun p => p.1 = k)).map (fun p => p.2)
  | .text _, _ => none

mutual
/-- `element.get_text()`: concatenation of every text node in the subtree,
in document order. -/
def getText : Html → String
  | .text s => s
  | .tag _ _ cs => getTextList cs

/-- `get_text` over a forest of siblings. -/
def getTextList : HtmlList → String
  | .nil => ""
  | .cons h t => getText h ++ getTextList t
end

mutual
/-- A tag element together with its tag descendants, in document
(pre-)order; a text node contributes nothing. -/
def selfAndTags : Html → List Html
  | .text _ => []
  | .tag n a cs => .tag n a cs :: descendantsList cs

/-- All tag elements of a forest, in document (pre-)order — the search
space of BeautifulSoup's `find`/`select`. -/
def descendantsList : HtmlList → List Html
  | .nil => []
  | .cons h t => selfAndTags h ++ descendantsList t
end

/-- Tag descendants of one element (excluding the element itself). -/
def descendantTags : Html → List Html
  | .text _ => []
  | .tag _ _ cs => descendantsList cs

/-- `element.string`: the single string of an element with exactly one
child, recursing through single-child tags; `None` otherwise. -/
def singleString : Html → Option String
  | .text s => some s
  | .tag _ _ (.cons c .nil) => singleString c
  | .tag _ _ _ => none

/-- `element.find([names...])`: first tag descendant whose name is listed. -/
def findFirstTag (e : Html) (names : List String) : Option Html :=
  (descendantTags e).find? (fun el => names.contains el.tagName)

/-- Is `pat` a contiguous substring of `l`? -/
def isInfixChars (pat : List Char) : List Char → Bool
  | [] => pat.isEmpty
  | c :: rest => pat.isPrefixOf (c :: rest) || isInfixChars pat rest

/-- Does the raw `class` attribute contain `pat` as a substring
(the CSS selector `[class*="pat"]`, case-sensitive)? -/
def classContains (el : Html) (pat : String) : Bool :=
  match el.attr "class" with
  | some c => isInfixChars pat.data c.data
  | none => false

/-- Does the `class` attribute match one of the given lower-case patterns
case-insensitively (a `re.compile(p1|p2|..., re.I)` keyword filter)? -/
def classMatchesCI (el : Html) (pats : List String) : Bool :=
  match el.attr "class" with
  | some c => pats.any (fun p => isInfixChars p.data (lowerStr c).data)
  | none => false

/-! ## `BlogScraper._extract_post_info` -/

/-- A post dictionary as built by `_extract_post_info`. -/
structure Post where
  title : String
  url : String
  date : Option DateTime
  summary : String
  company : String
  scraped_at : String
deriving DecidableEq, Repr

/-- The title-selection loop: run the four strategies in order, stop at the
first hit whose stripped text is non-empty; otherwise the loop leaves
`title_elem` at the value computed by the last strategy. -/
def pickTitle : Option Html → List (Option Html) → Option Html
  | last, [] => last
  | _, r :: rest =>
    match r with
    | some el => if pyStrip (getText el) = "" then pickTitle (some el) rest else some el
    | none => pickTitle none rest

/-- The four `title_selectors` strategies of `_extract_post_info`: heading
tags `h1`-`h4`, any anchor, `[class*="title"]`, `[class*="headline"]`. -/
def titleStrategies (e : Html) : List (Option Html) :=
  [findFirstTag e ["h1", "h2", "h3", "h4"],
   findFirstTag e ["a"],
   (descendantTags e).find? (fun el => classContains el "title"),
   (descendantTags e).find? (fun el => classContains el "headline")]

/-- The chosen `title_elem`. -/
def titleElemOf (e : Html) : Option Html :=
  pickTitle none (titleStrategies e)

/-- The extracted title: stripped text of the chosen element, or the
sentinel; then whitespace-collapsed and stripped again. -/
def titleOf (e : Html) : String :=
  let raw := match titleElemOf e with
    | some el => pyStrip (getText el)
    | none => "No title found"
  pyStrip (collapseWs raw)

/-- `element.find('a', href=True)`: first anchor descendant that has an
`href` attribute (of any value). -/
def findHrefAnchor (e : Html) : Option Html :=
  (descendantTags e).find? (fun el => el.tagName = "a" && (el.attr "href").isSome)

/-- The chosen `link_elem`: the title element itself when it is an anchor,
else the first anchor with an `href`. -/
def chosenLinkElem (e : Html) : Option Html :=
  match titleElemOf e with
  | some t => if t.tagName = "a" then some t else findHrefAnchor e
  | none => findHrefAnchor e

/-! ### `urllib.parse.urljoin`, modelled for hierarchical URLs

`splitScheme` splits a character list at its first `://`; a URL whose part
before the first `://` is a non-empty run of scheme characters is treated as
absolute.  Relative references are resolved the way `urljoin` resolves plain
path references: scheme-relative (`//h/p`), root-relative (`/p`), and
last-segment replacement for bare relative paths. -/

/-- Characters allowed in a URL scheme. -/
def isSchemeChar (c : Char) : Bool :=
  c.isAlpha || c.isDigit || c = '+' || c = '-' || c = '.'

/-- Split a character list at the first occurrence of `://`. -/
def splitScheme : List Char → Option (List Char × List Char)
  | [] => none
  | c :: rest =>
    if c = ':' ∧ rest.take 2 = ['/', '/'] then some ([], rest.drop 2)
    else
      match splitScheme rest with
      | some (a, b) => some (c :: a, b)
      | none => none

/-- Does the string begin with a valid `scheme://`? -/
def hasScheme (l : List Char) : Bool :=
  match splitScheme l with
  | some (a, _) => !a.isEmpty && a.all isSchemeChar
  | none => false

/-- The directory part of a path: everything up to and including the last
slash (`/` when the path is empty). -/
def dirOf (p : List Char) : List Char :=
  match (p.reverse.dropWhile (fun c => c ≠ '/')).reverse with
  | [] => ['/']
  | q => q

/-- `urllib.parse.urljoin(base, rel)` for hierarchical URLs. -/
def urljoin (base rel : String) : String :=
  if rel.data.isEmpty then base
  else if hasScheme rel.data then rel
  else
    match splitScheme base.data with
    | none => rel
    | some (sch, rest) =>
      let netl := rest.takeWhile (fun c => c ≠ '/')
      let path := rest.dropWhile (fun c => c ≠ '/')
      match rel.data with
      | '/' :: '/' :: r => ⟨sch ++ ':' :: '/' :: '/' :: r⟩
      | '/' :: r => ⟨sch ++ ':' :: '/' :: '/' :: (netl ++ '/' :: r)⟩
      | r => ⟨sch ++ ':' :: '/' :: '/' :: (netl ++ dirOf path ++ r)⟩

/-- `urlparse(url).netloc`: the authority of a hierarchical URL. -/
def netlocOf (s : String) : String :=
  match splitScheme s.data with
  | some (_, rest) => ⟨rest.takeWhile (fun c => c ≠ '/' && c ≠ '?' && c ≠ '#')⟩
  | none => ""

/-- The extracted link: the chosen anchor's `href` joined onto `base_url`
when present and non-empty (`link_elem.get('href')` is truthy), else
`base_url` itself. -/
def urlOf (e : Html) (base : String) : String :=
  match chosenLinkElem e with
  | some le =>
    match le.attr "href" with
    | some h => if h = "" then base else urljoin base h
    | none => base
  | none => base

/-- The date element: first `time`/`span`/`div` descendant whose class
matches `date|time|published` case-insensitively. -/
def dateElemOf (e : Html) : Option Html :=
  (descendantTags e).find? (fun el =>
    ["time", "span", "div"].contains el.tagName &&
      classMatchesCI el ["date", "time", "published"])

/-- The extracted date: prefer a truthy `datetime` attribute, else the
stripped text; run through `_parse_date`.  No date element means `None`. -/
def dateOf (e : Html) : Option DateTime :=
  match dateElemOf e with
  | some el =>
    parse_date (match el.attr "datetime" with
      | some v => if v = "" then pyStrip (getText el) else v
      | none => pyStrip (getText el))
  | none => none

/-- The summary element: first `p`/`div` descendant whose class matches
`summary|excerpt|description` case-insensitively, else the first paragraph. -/
def summaryElemOf (e : Html) : Option Html :=
  match (descendantTags e).find? (fun el =>
      ["p", "div"].contains el.tagName &&
        classMatchesCI el ["summary", "excerpt", "description"]) with
  | some el => some el
  | none => (descendantTags e).find? (fun el => el.tagName = "p")

/-- The extracted summary: stripped text truncated to 200 characters with
`"..."` appended unconditionally whenever a summary element was found, else
the sentinel.  (The source appends the ellipsis even when nothing was cut.) -/
def summaryOf (e : Html) : String :=
  match summaryElemOf e with
  | some el => strTake (pyStrip (getText el)) 200 ++ "..."
  | none => "No summary available"

/-- `BlogScraper._extract_post_info`.  The Python function returns `None`
only when an exception escapes element traversal; the embedding is total, so
that path is unreachable and a post dictionary is always produced. -/
def extract_post_info (e : Html) (base_url company now : String) : Post :=
  { title := titleOf e
    url := urlOf e base_url
    date := dateOf e
    summary := summaryOf e
    company := company
    scraped_at := now }

/-! ## `BlogScraper._parse_generic_blog` -/

/-- The seven selector strategies, in source order: `article` tags, then
`[class*=...]` for `post`, `article`, `story`, `entry`, `item`, `card`,
each evaluated over the whole document. -/
def strategyResults (doc : Html) : List (List Html) :=
  [(descendantTags doc).filter (fun el => el.tagName = "article"),
   (descendantTags doc).filter (fun el => classContains el "post"),
   (descendantTags doc).filter (fun el => classContains el "article"),
   (descendantTags doc).filter (fun el => classContains el "story"),
   (descendantTags doc).filter (fun el => classContains el "entry"),
   (descendantTags doc).filter (fun el => classContains el "item"),
   (descendantTags doc).filter (fun el => classContains el "card")]

/-- First non-empty strategy result, if any. -/
def firstNonEmpty : List (List Html) → Option (List Html)
  | [] => none
  | l :: rest => if l.isEmpty then firstNonEmpty rest else some l

/-- `soup.find_all(['div'], string=re.compile(r'.+'))`: `div` elements whose
`.string` exists and contains a character `.` can match (any non-newline). -/
def fallbackElements (doc : Html) : List Html :=
  (descendantTags doc).filter (fun el =>
    el.tagName = "div" &&
      match singleString el with
      | some s => s.data.any (fun c => c ≠ '\n')
      | none => false)

/-- The candidate `post_elements`: the first selector strategy with ≥ 1
match, capped at 15; otherwise the fallback, capped at 10. -/
def candidateElements (doc : Html) : List Html :=
  match firstNonEmpty (strategyResults doc) with
  | some els => els.take 15
  | none => (fallbackElements doc).take 10

/-- The `company` string of `_parse_generic_blog`:
`urlparse(base_url).netloc.replace('www.', '').title()`. -/
def companyOf (base_url : String) : String :=
  titleCase (pyReplace (netlocOf base_url) "www." "")

/-- `BlogScraper._parse_generic_blog`: extract a post from each candidate
element, keep it when its title is truthy and longer than 10 characters and
it passes the recency predicate.  The source wraps the body in a
`try/except` that returns the posts collected so far; the embedding is
total, so that handler is unreachable. -/
def parse_generic_blog (doc : Html) (base_url : String) (cutoff : DateTime)
    (now : String) : List Post :=
  (candidateElements doc).filterMap (fun el =>
    let post := extract_post_info el base_url (companyOf base_url) now
    if post.title ≠ "" ∧ post.title.length > 10 then
      if is_recent_post post.date cutoff then some post else none
    else none)

/-! ## Fetching and orchestration -/

/-- A configured site: dictionary key (`company_name`) and listing `url`. -/
structure SiteConfig where
  name : String
  url : String
deriving DecidableEq, Repr

/-- The outcome of one HTTP GET, as classified by `_make_request`: a body,
or one of the four failure classes it logs. -/
inductive FetchOutcome where
  | success (doc : Html)
  | timeout
  | connectionError
  | httpError (code : Nat)
  | otherError

/-- `BlogScraper._make_request`: every failure class yields `None`. -/
def make_request : FetchOutcome → Option Html
  | .success doc => some doc
  | _ => none

/-- `BlogScraper._scrape_company_blog`: a failed fetch yields `[]`;
otherwise the parser runs on the body.  Its `except` clauses (network and
parsing errors, each yielding `[]`) are unreachable in the total embedding. -/
def scrape_company_blog (fetched : FetchOutcome) (url : String)
    (cutoff : DateTime) (now : String) : List Post :=
  match make_request fetched with
  | none => []
  | some doc => parse_generic_blog doc url cutoff now

/-- `BlogScraper.scrape_all_companies`: iterate the configured sites in
order, recording each site's posts under its name; the per-site `except`
handler records `[]` on failure, so every configured site gets an entry.
Each site is paired with its fetch outcome for the run. -/
def scrape_all_companies (sites : List (SiteConfig × FetchOutcome))
    (cutoff : DateTime) (now : String) : List (String × List Post) :=
  sites.map (fun sc => (sc.1.name, scrape_company_blog sc.2 sc.1.url cutoff now))

/-! ## Concrete fixtures -/

/-- The spec's §8 scenario element: one `article` with a heading, a link, a
dated `time` element and a paragraph. -/
def demoArticle : Html :=
  .el "article" [] [
    .el "h2" [] [.text "Example Title Here"],
    .el "a" [("href", "/x")] [.text "read"],
    .el "time" [("class", "date"), ("datetime", "2024-01-01")] [.text "Jan 1"],
    .el "p" [] [.text "Some summary text."]]

/-- A document containing `demoArticle`. -/
def demoDoc : Html := .el "[document]" [] [demoArticle]

/-- A concrete cutoff instant. -/
def demoCutoff : DateTime := ⟨2024, 1, 1, 0, 0, 0⟩

/-- The post the scanner extracts from `demoDoc` with base
`https://site.test` and fetch time `"T0"`. -/
def demoPost : Post :=
  { title := "Example Title Here", url := "https://site.test/x",
    date := some ⟨2024, 1, 1, 0, 0, 0⟩, summary := "Some summary text....",
    company := "Site.Test", scraped_at := "T0" }

/-- A document whose only candidate element has no title-bearing
descendant, so its extracted title is the sentinel. -/
def noTitleDoc : Html :=
  .el "[document]" [] [.el "article" [] [.el "p" [] [.text "some teaser text"]]]

/-- A document matched by no structured selector strategy: its single `div`
is reached only through the last-resort fallback. -/
def fallbackDoc : Html :=
  .el "[document]" [] [.el "div" [] [.text "hello"]]

/-- An element whose title element is an anchor without an `href`, while a
later anchor does carry one. -/
def titleAnchorNoHref : Html :=
  .el "article" [] [
    .el "a" [] [.text "A Title With No Link Here"],
    .el "a" [("href", "/other")] [.text "more"]]

/-- 210 copies of `a`: a summary longer than the 200-character cut. -/
def longText : String := ⟨List.replicate 210 'a'⟩

/-- An element whose summary paragraph is longer than 200 characters. -/
def longSummaryArticle : Html :=
  .el "article" [] [
    .el "h2" [] [.text "A Sufficiently Long Title"],
    .el "p" [] [.text longText]]

/-- The post extracted from `demoDoc` when scraped under the TechCrunch
listing URL. -/
def tcPost : Post :=
  { title := "Example Title Here", url := "https://techcrunch.com/x",
    date := some ⟨2024, 1, 1, 0, 0, 0⟩, summary := "Some summary text....",
    company := "Techcrunch.Com", scraped_at := "T0" }

/-- The TechCrunch site entry of `self.companies`. -/
def tcConfig : SiteConfig :=
  ⟨"TechCrunch AI", "https://techcrunch.com/category/artificial-intelligence/"⟩

/-- A two-site run in which the first fetch times out. -/
def demoSites : List (SiteConfig × FetchOutcome) :=
  [(⟨"TechCrunch AI", "https://techcrunch.com/category/artificial-intelligence/"⟩,
    .timeout),
   (⟨"Demo Site", "https://site.test"⟩, .success demoDoc)]

-- Sanity checks of the embedding on concrete inputs.
example : parse_date "2024-01-01" = some ⟨2024,1,1,0,0,0⟩ := by decide
example : parse_date "03/04/2024" = some ⟨2024,3,4,0,0,0⟩ := by decide
example : strptime "03/04/2024" .dmY = some ⟨2024,4,3,0,0,0⟩ := by decide
example : parse_date "January 5, 2024" = some ⟨2024,1,5,0,0,0⟩ := by decide
example : parse_date "Jan 5, 2024" = some ⟨2024,1,5,0,0,0⟩ := by decide
example : parse_date "5 March 2024" = some ⟨2024,3,5,0,0,0⟩ := by decide
example : parse_date "2024-01-01T10:20:30Z" = some ⟨2024,1,1,10,20,30⟩ := by decide
example : parse_date "" = none := by decide
example : parse_date "garbage" = none := by decide
example : parse_date "2024-02-30" = none := by decide
example : urljoin "https://site.test" "/x" = "https://site.test/x" := by decide
example : urljoin "https://a.com/x/y" "z" = "https://a.com/x/z" := by decide
example : urljoin "https://a.com/x/" "http://b.org/q" = "http://b.org/q" := by decide
example : companyOf "https://techcrunch.com/category/artificial-intelligence/" = "Techcrunch.Com" := by decide
example : companyOf "https://www.theverge.com/ai" = "Theverge.Com" := by decide
example : parse_generic_blog demoDoc "https://site.test" demoCutoff "T0" =
    [{ title := "Example Title Here", url := "https://site.test/x",
       date := some ⟨2024,1,1,0,0,0⟩, summary := "Some summary text....",
       company := "Site.Test", scraped_at := "T0" }] := by decide
example : parse_generic_blog demoDoc "https://site.test" ⟨2024,1,2,0,0,0⟩ "T0" = [] := by decide

/-! ## Theorems -/

/-- Inversion of the scanner's filter loop: every post in the output of
`_parse_generic_blog` was extracted from some candidate element and passed
both the title filter and the recency predicate. -/
theorem mem_parse_generic_blog {doc : Html} {base now : String} {cutoff : DateTime}
    {p : Post} (h : p ∈ parse_generic_blog doc base cutoff now) :
    ∃ el ∈ candidateElements doc,
      p = extract_post_info el base (companyOf base) now ∧
      p.title ≠ "" ∧ p.title.length > 10 ∧ is_recent_post p.date cutoff = true := by
  unfold parse_generic_blog at h
  rw [List.mem_filterMap] at h
  obtain ⟨el, hel, heq⟩ := h
  refine ⟨el, hel, ?_⟩
  dsimp only at heq
  split at heq
  · split at heq
    · next hrec =>
      next hcond =>
        cases heq
        exact ⟨rfl, hcond.1, hcond.2, hrec⟩
    · exact absurd heq (by simp)
  · exact absurd heq (by simp)

/-- C1: the recency predicate retains unknown dates unconditionally,
retains a known date iff it is `≥ cutoff` (boundary inclusive), and hence
every post in the scanner's output has an unknown date or a date `≥ cutoff`. -/
theorem recency_filter_spec (cutoff : DateTime) :
    is_recent_post none cutoff = true ∧
    (∀ d, is_recent_post (some d) cutoff = true ↔ DateTime.le cutoff d = true) ∧
    (∀ (doc : Html) (base now : String) (p : Post),
      p ∈ parse_generic_blog doc base cutoff now →
        p.date = none ∨ ∃ d, p.date = some d ∧ DateTime.le cutoff d = true) := by
  refine ⟨rfl, fun d => Iff.rfl, ?_⟩
  intro doc base now p hp
  obtain ⟨el, -, -, -, -, hrec⟩ := mem_parse_generic_blog hp
  cases hd : p.date with
  | none => exact Or.inl rfl
  | some d =>
    rw [hd] at hrec
    exact Or.inr ⟨d, rfl, hrec⟩

/-- Witness for C1 at the spec's §8 scenario. -/
theorem recency_filter_spec_witness :
    demoPost.date = none ∨
      ∃ d, demoPost.date = some d ∧ DateTime.le demoCutoff d = true :=
  (recency_filter_spec demoCutoff).2.2 demoDoc "https://site.test" "T0" demoPost
    (by decide)

/-- C3: the orchestrator returns one entry per configured site, under the
sites' names in configuration order, and a site whose fetch failed maps to
the empty list.  (`scrape_all_companies` is a total function, so no
per-site failure escapes it.) -/
theorem scrape_all_companies_keys (sites : List (SiteConfig × FetchOutcome))
    (cutoff : DateTime) (now : String)
    (_hnodup : (sites.map (fun sc => sc.1.name)).Nodup) :
    (scrape_all_companies sites cutoff now).map Prod.fst =
      sites.map (fun sc => sc.1.name) ∧
    ∀ sc ∈ sites, make_request sc.2 = none →
      (sc.1.name, ([] : List Post)) ∈ scrape_all_companies sites cutoff now := by
  constructor
  · simp [scrape_all_companies]
  · intro sc hsc hfail
    have hval : scrape_company_blog sc.2 sc.1.url cutoff now = [] := by
      unfold scrape_company_blog
      rw [hfail]
    unfold scrape_all_companies
    rw [List.mem_map]
    refine ⟨sc, hsc, ?_⟩
    show (sc.1.name, scrape_company_blog sc.2 sc.1.url cutoff now) = (sc.1.name, [])
    rw [hval]

/-- Witness for C3: two sites, the first of which times out. -/
theorem scrape_all_companies_keys_witness :
    (scrape_all_companies demoSites demoCutoff "T0").map Prod.fst =
      ["TechCrunch AI", "Demo Site"] ∧
    ("TechCrunch AI", ([] : List Post)) ∈ scrape_all_companies demoSites demoCutoff "T0" := by
  have h := scrape_all_companies_keys demoSites demoCutoff "T0" (by decide)
  refine ⟨h.1,
    h.2 (⟨"TechCrunch AI", "https://techcrunch.com/category/artificial-intelligence/"⟩,
      .timeout) ?_ rfl⟩
  simp [demoSites]

set_option maxRecDepth 10000 in
/-- C4 (code evaluation): `_extract_post_info` appends the ellipsis marker
even when the found summary is at most 200 characters — a summary of 18
characters comes back with `"..."` appended rather than unmodified — while
a summary longer than 200 characters is cut to exactly its first 200
characters plus the marker. -/
theorem summary_ellipsis_unconditional :
    (extract_post_info demoArticle "https://site.test" "Site.Test" "T0").summary =
      "Some summary text." ++ "..." ∧
    "Some summary text.".length ≤ 200 ∧
    (extract_post_info longSummaryArticle "https://site.test" "Site.Test" "T0").summary =
      String.mk (List.replicate 200 'a') ++ "..." := by
  refine ⟨by decide, by decide, by decide⟩

/-- C5 (counterexample): the scanner's filter checks only that the title is
truthy and longer than 10 characters; the sentinel `"No title found"` is 14
characters long, so a post carrying it appears in the output. -/
theorem sentinel_title_in_output :
    (parse_generic_blog noTitleDoc "https://site.test" demoCutoff "T0").map Post.title =
      ["No title found"] := by decide

/-- C5 (amended): every post kept by the scanner has a non-empty title
longer than 10 characters (which does not exclude the 14-character
sentinel). -/
theorem scanner_title_filter (doc : Html) (base now : String) (cutoff : DateTime)
    (p : Post) (hp : p ∈ parse_generic_blog doc base cutoff now) :
    p.title ≠ "" ∧ p.title.length > 10 := by
  obtain ⟨el, -, -, h1, h2, -⟩ := mem_parse_generic_blog hp
  exact ⟨h1, h2⟩

/-- Witness for the amended C5. -/
theorem scanner_title_filter_witness :
    demoPost.title ≠ "" ∧ demoPost.title.length > 10 :=
  scanner_title_filter demoDoc "https://site.test" "T0" demoCutoff demoPost (by decide)

/-- C6 (counterexample): the post's `company` field is derived from the
listing URL's host (`urlparse(base_url).netloc.replace('www.','').title()`),
not from the configured site name under which the post is recorded: scraping
the site configured as `"TechCrunch AI"` records posts whose `company` is
`"Techcrunch.Com"`. -/
theorem company_field_mismatch :
    scrape_all_companies [(tcConfig, .success demoDoc)] demoCutoff "T0" =
      [("TechCrunch AI", [tcPost])] ∧
    tcPost.company = "Techcrunch.Com" ∧ "Techcrunch.Com" ≠ "TechCrunch AI" := by
  refine ⟨by decide, by decide, by decide⟩

/-- C6 (amended): every recorded post's `company` field equals the
title-cased, `www.`-stripped host of its site's listing URL (not
necessarily the configured site name), and its fetch timestamp is the time
of extraction. -/
theorem company_field_amended (sites : List (SiteConfig × FetchOutcome))
    (cutoff : DateTime) (now name : String) (posts : List Post) (p : Post)
    (h1 : (name, posts) ∈ scrape_all_companies sites cutoff now)
    (h2 : p ∈ posts) :
    ∃ sc ∈ sites, sc.1.name = name ∧
      p.company = companyOf sc.1.url ∧ p.scraped_at = now := by
  rw [scrape_all_companies, List.mem_map] at h1
  obtain ⟨sc, hsc, heq⟩ := h1
  injection heq with hname hposts
  subst hname
  subst hposts
  refine ⟨sc, hsc, rfl, ?_⟩
  cases hm : make_request sc.2 with
  | none =>
    simp only [scrape_company_blog, hm] at h2
    exact absurd h2 (List.not_mem_nil _)
  | some doc =>
    simp only [scrape_company_blog, hm] at h2
    obtain ⟨el, -, hpe, -⟩ := mem_parse_generic_blog h2
    rw [hpe]
    exact ⟨rfl, rfl⟩

/-- Witness for the amended C6, at the TechCrunch configuration. -/
theorem company_field_amended_witness :
    ∃ sc ∈ [(tcConfig, FetchOutcome.success demoDoc)],
      sc.1.name = "TechCrunch AI" ∧
      tcPost.company = companyOf sc.1.url ∧ tcPost.scraped_at = "T0" :=
  company_field_amended [(tcConfig, .success demoDoc)] demoCutoff "T0"
    "TechCrunch AI" [tcPost] tcPost (by decide) (by decide)

/-- C8: the scanner returns at most 15 posts when a structured selector
strategy wins, and at most 10 when the last-resort fallback is used. -/
theorem scanner_output_caps (doc : Html) (base now : String) (cutoff : DateTime) :
    ((firstNonEmpty (strategyResults doc)).isSome = true →
      (parse_generic_blog doc base cutoff now).length ≤ 15) ∧
    ((firstNonEmpty (strategyResults doc)).isNone = true →
      (parse_generic_blog doc base cutoff now).length ≤ 10) := by
  constructor <;> intro h <;>
    unfold parse_generic_blog candidateElements <;>
    cases hfe : firstNonEmpty (strategyResults doc)
  · rw [hfe] at h; cases h
  · dsimp only
    refine le_trans (List.length_filterMap_le _ _) ?_
    simp only [List.length_take]
    omega
  · dsimp only
    refine le_trans (List.length_filterMap_le _ _) ?_
    simp only [List.length_take]
    omega
  · rw [hfe] at h; cases h

/-- Witness for C8: a structured-strategy document and a fallback-only
document. -/
theorem scanner_output_caps_witness :
    (parse_generic_blog demoDoc "https://site.test" demoCutoff "T0").length ≤ 15 ∧
    (parse_generic_blog fallbackDoc "https://site.test" demoCutoff "T0").length ≤ 10 :=
  ⟨(scanner_output_caps demoDoc "https://site.test" "T0" demoCutoff).1 (by decide),
   (scanner_output_caps fallbackDoc "https://site.test" "T0" demoCutoff).2 (by decide)⟩

/-- The format-trying loop returns `None` exactly when every format fails. -/
theorem tryFormats_eq_none_iff (s : String) (L : List Fmt) :
    tryFormats s L = none ↔ ∀ f ∈ L, strptime s f = none := by
  induction L with
  | nil => simp [tryFormats]
  | cons f rest ih =>
    rw [tryFormats]
    cases hf : strptime s f with
    | some d => simp [hf]
    | none => simp [hf, ih]

/-- The format-trying loop returns the first format that succeeds: a
success splits the format list into failing formats, the matching format,
and untried ones. -/
theorem tryFormats_eq_some (s : String) (L : List Fmt) (d : DateTime)
    (h : tryFormats s L = some d) :
    ∃ pre f post, L = pre ++ f :: post ∧ strptime s f = some d ∧
      ∀ g ∈ pre, strptime s g = none := by
  induction L with
  | nil => simp [tryFormats] at h
  | cons f rest ih =>
    rw [tryFormats] at h
    cases hf : strptime s f with
    | some d' =>
      rw [hf] at h
      cases h
      exact ⟨[], f, rest, rfl, hf, by simp⟩
    | none =>
      rw [hf] at h
      obtain ⟨pre, g, post, rfl, hg, hpre⟩ := ih h
      refine ⟨f :: pre, g, post, rfl, hg, ?_⟩
      intro g' hg'
      rcases List.mem_cons.mp hg' with rfl | hmem
      · exact hf
      · exact hpre g' hmem

/-- C2: `_parse_date` is total (the embedding never fails): it returns
`None` exactly when the input is empty or no format pattern matches the
whole stripped string, and any successful result comes from the first
matching pattern of the fixed ordered format list. -/
theorem parse_date_spec (s : String) :
    (parse_date s = none ↔
      (s = "" ∨ ∀ f ∈ dateFormats, strptime (pyStrip s) f = none)) ∧
    (∀ d, parse_date s = some d →
      ∃ pre f post, dateFormats = pre ++ f :: post ∧
        strptime (pyStrip s) f = some d ∧
        ∀ g ∈ pre, strptime (pyStrip s) g = none) := by
  by_cases hs : s = ""
  · constructor
    · simp [parse_date, hs]
    · intro d hd
      rw [parse_date, if_pos hs] at hd
      cases hd
  · constructor
    · rw [parse_date, if_neg hs, tryFormats_eq_none_iff]
      constructor
      · exact Or.inr
      · rintro (h | h)
        · exact absurd h hs
        · exact h
    · intro d hd
      rw [parse_date, if_neg hs] at hd
      exact tryFormats_eq_some _ _ _ hd

/-- Witness for C2: an ISO date is parsed by the first format, with no
earlier pattern to fail. -/
theorem parse_date_spec_witness :
    ∃ pre f post, dateFormats = pre ++ f :: post ∧
      strptime (pyStrip "2024-03-05") f = some ⟨2024, 3, 5, 0, 0, 0⟩ ∧
      ∀ g ∈ pre, strptime (pyStrip "2024-03-05") g = none :=
  (parse_date_spec "2024-03-05").2 ⟨2024, 3, 5, 0, 0, 0⟩ (by decide)

/-- A URL is absolute when it starts with a non-empty scheme followed by
`://`. -/
def IsAbsolute (s : String) : Prop :=
  ∃ a b : List Char, a ≠ [] ∧ a.all isSchemeChar = true ∧
    s.data = a ++ ':' :: '/' :: '/' :: b

/-- `splitScheme` really splits at a `://`. -/
theorem splitScheme_sound :
    ∀ {l a b : List Char}, splitScheme l = some (a, b) →
      l = a ++ ':' :: '/' :: '/' :: b := by
  intro l
  induction l with
  | nil => intro a b h; simp [splitScheme] at h
  | cons c rest ih =>
    intro a b h
    rw [splitScheme] at h
    split at h
    · next hc =>
      obtain ⟨hc1, hc2⟩ := hc
      injection h with h'
      injection h' with ha hb
      subst ha
      subst hb
      subst hc1
      have : rest = rest.take 2 ++ rest.drop 2 := (List.take_append_drop 2 rest).symm
      rw [hc2] at this
      simpa using this
    · cases hr : splitScheme rest with
      | none => rw [hr] at h; cases h
      | some p =>
        obtain ⟨a', b'⟩ := p
        rw [hr] at h
        injection h with h'
        injection h' with ha hb
        subst ha
        subst hb
        have := ih hr
        simp [this]

/-- `splitScheme` finds the marker after any colon-free prefix. -/
theorem splitScheme_of_append (a b : List Char) (ha : ':' ∉ a) :
    splitScheme (a ++ ':' :: '/' :: '/' :: b) = some (a, b) := by
  induction a with
  | nil => simp [splitScheme]
  | cons c a' ih =>
    have hc : ¬(c = ':' ∧ (a' ++ ':' :: '/' :: '/' :: b).take 2 = ['/', '/']) := by
      rintro ⟨rfl, -⟩
      exact ha (List.mem_cons_self _ _)
    rw [List.cons_append, splitScheme, if_neg hc,
      ih (fun hm => ha (List.mem_cons_of_mem _ hm))]

/-- Scheme characters exclude the colon. -/
theorem not_colon_of_schemeChars {a : List Char} (h : a.all isSchemeChar = true) :
    ':' ∉ a := by
  intro hm
  have := List.all_eq_true.mp h _ hm
  simp [isSchemeChar] at this

/-- A char list accepted by `hasScheme` belongs to an absolute URL. -/
theorem isAbsolute_of_hasScheme {s : String} (h : hasScheme s.data = true) :
    IsAbsolute s := by
  unfold hasScheme at h
  cases hsp : splitScheme s.data with
  | none => rw [hsp] at h; cases h
  | some p =>
    obtain ⟨a, b⟩ := p
    rw [hsp] at h
    rw [Bool.and_eq_true, Bool.not_eq_true'] at h
    refine ⟨a, b, ?_, h.2, splitScheme_sound hsp⟩
    intro he
    rw [he] at h
    exact absurd h.1 (by simp)

/-- `urljoin` of an absolute base is absolute. -/
theorem urljoin_absolute (base rel : String) (h : IsAbsolute base) :
    IsAbsolute (urljoin base rel) := by
  unfold urljoin
  split
  · exact h
  · split
    · next hsch => exact isAbsolute_of_hasScheme hsch
    · obtain ⟨a, b, ha, hall, hdata⟩ := h
      rw [hdata, splitScheme_of_append a _ (not_colon_of_schemeChars hall)]
      dsimp only
      split
      · exact ⟨a, _, ha, hall, rfl⟩
      · exact ⟨a, _, ha, hall, rfl⟩
      · exact ⟨a, _, ha, hall, rfl⟩

/-- C7: the extracted url is always absolute when the listing URL is — a
relative `href` is resolved against it — and when no anchor with an `href`
is chosen, the url is the listing URL itself. -/
theorem extracted_url_absolute (e : Html) (base company now : String)
    (h : IsAbsolute base) :
    IsAbsolute (extract_post_info e base company now).url ∧
    (chosenLinkElem e = none → (extract_post_info e base company now).url = base) ∧
    (∀ le, chosenLinkElem e = some le → le.attr "href" = none →
      (extract_post_info e base company now).url = base) := by
  refine ⟨?_, ?_, ?_⟩
  · show IsAbsolute (urlOf e base)
    unfold urlOf
    cases hle : chosenLinkElem e with
    | none => exact h
    | some le =>
      dsimp only
      cases hh : le.attr "href" with
      | none => exact h
      | some hr =>
        dsimp only
        split
        · exact h
        · exact urljoin_absolute base hr h
  · intro h0
    show urlOf e base = base
    unfold urlOf
    rw [h0]
  · intro le h0 hh
    show urlOf e base = base
    unfold urlOf
    rw [h0]
    dsimp only
    rw [hh]

/-- Witness for C7 at the spec's §8 scenario. -/
theorem extracted_url_absolute_witness :
    IsAbsolute (extract_post_info demoArticle "https://site.test" "Site.Test" "T0").url ∧
    (chosenLinkElem demoArticle = none →
      (extract_post_info demoArticle "https://site.test" "Site.Test" "T0").url =
        "https://site.test") ∧
    (∀ le, chosenLinkElem demoArticle = some le → le.attr "href" = none →
      (extract_post_info demoArticle "https://site.test" "Site.Test" "T0").url =
        "https://site.test") :=
  extracted_url_absolute demoArticle "https://site.test" "Site.Test" "T0"
    (isAbsolute_of_hasScheme (by decide))

/-- C10: when the chosen title element is an anchor without an `href`, the
post's url is `base_url` — the fallback search for another anchor is
skipped, whether or not one with an `href` exists. -/
theorem title_anchor_without_href (e : Html) (base company now : String) (t : Html)
    (ht : titleElemOf e = some t) (ha : t.tagName = "a") (hh : t.attr "href" = none) :
    (extract_post_info e base company now).url = base := by
  show urlOf e base = base
  simp [urlOf, chosenLinkElem, ht, ha, hh]

/-- Witness for C10: the title anchor has no `href` although a later anchor
does. -/
theorem title_anchor_without_href_witness :
    (extract_post_info titleAnchorNoHref "https://site.test" "Site.Test" "T0").url =
      "https://site.test" :=
  title_anchor_without_href titleAnchorNoHref "https://site.test" "Site.Test" "T0"
    (.el "a" [] [.text "A Title With No Link Here"]) rfl rfl rfl

/-! ### Lemmas for the slash-format disambiguation (C9) -/

/-- A digit character is not altered by lower-casing. -/
theorem lowerChar_digit {c : Char} (h : isDigitChar c = true) : lowerChar c = c := by
  rw [isDigitChar, Bool.and_eq_true, decide_eq_true_eq, decide_eq_true_eq] at h
  rw [lowerChar, if_neg]
  rintro ⟨h1, -⟩
  omega

/-- A digit character is not a whitespace character. -/
theorem pyIsSpace_digit {c : Char} (h : isDigitChar c = true) : pyIsSpace c = false := by
  rw [isDigitChar, Bool.and_eq_true, decide_eq_true_eq, decide_eq_true_eq] at h
  have hne : ∀ w : Char, w.toNat < 48 → c ≠ w := by
    rintro w hw rfl
    omega
  simp [pyIsSpace, hne ' ' (by decide), hne '\t' (by decide), hne '\n' (by decide),
    hne '\r' (by decide), hne '\x0b' (by decide), hne '\x0c' (by decide)]

/-- Sequencing inversion for `Option`. -/
theorem option_bind_some {α β : Type} {x : Option α} {f : α → Option β} {b : β}
    (h : x >>= f = some b) : ∃ a, x = some a ∧ f a = some b := by
  cases x with
  | none => exact absurd h (by simp)
  | some a => exact ⟨a, rfl, by simpa using h⟩

/-- Inversion of `parseDigit`. -/
theorem parseDigit_eq_some {l : List Char} {v : Nat} {r : List Char}
    (h : parseDigit l = some (v, r)) :
    ∃ c, l = c :: r ∧ isDigitChar c = true ∧ v = digitVal c := by
  match l with
  | [] => simp [parseDigit] at h
  | c :: rest =>
    rw [parseDigit] at h
    split at h
    · next hc =>
      injection h with h'
      injection h' with hv hr
      subst hv; subst hr
      exact ⟨c, rfl, hc, rfl⟩
    · cases h

/-- Inversion of `parseYear4`: exactly four digit characters are consumed. -/
theorem parseYear4_eq_some {l : List Char} {v : Nat} {r : List Char}
    (h : parseYear4 l = some (v, r)) :
    ∃ c1 c2 c3 c4, l = c1 :: c2 :: c3 :: c4 :: r ∧
      isDigitChar c1 = true ∧ isDigitChar c2 = true ∧
      isDigitChar c3 = true ∧ isDigitChar c4 = true := by
  unfold parseYear4 at h
  obtain ⟨⟨a, l1⟩, h1, h⟩ := option_bind_some h
  dsimp only at h
  obtain ⟨⟨b, l2⟩, h2, h⟩ := option_bind_some h
  dsimp only at h
  obtain ⟨⟨c, l3⟩, h3, h⟩ := option_bind_some h
  dsimp only at h
  obtain ⟨⟨d, l4⟩, h4, h⟩ := option_bind_some h
  dsimp only at h
  injection h with h'
  injection h' with hv hr
  subst hr
  obtain ⟨c1, hl, hd1, -⟩ := parseDigit_eq_some h1
  obtain ⟨c2, hl1, hd2, -⟩ := parseDigit_eq_some h2
  obtain ⟨c3, hl2, hd3, -⟩ := parseDigit_eq_some h3
  obtain ⟨c4, hl3, hd4, -⟩ := parseDigit_eq_some h4
  exact ⟨c1, c2, c3, c4, by rw [hl, hl1, hl2, hl3], hd1, hd2, hd3, hd4⟩

/-- Inversion of `parseNum2`: the value is in range and one or two digit
characters were consumed. -/
theorem parseNum2_eq_some {lo hi : Nat} {l : List Char} {v : Nat} {r : List Char}
    (h : parseNum2 lo hi l = some (v, r)) :
    lo ≤ v ∧ v ≤ hi ∧
      ((∃ c, l = c :: r ∧ isDigitChar c = true ∧ v = digitVal c) ∨
       (∃ c1 c2, l = c1 :: c2 :: r ∧ isDigitChar c1 = true ∧ isDigitChar c2 = true ∧
         v = digitVal c1 * 10 + digitVal c2)) := by
  match l with
  | [] => simp [parseNum2] at h
  | [c1] =>
    rw [parseNum2] at h
    split at h
    · next hc =>
      injection h with h'
      injection h' with hv hr
      subst hv; subst hr
      exact ⟨hc.2.1, hc.2.2, Or.inl ⟨c1, rfl, hc.1, rfl⟩⟩
    · cases h
  | c1 :: c2 :: rest =>
    rw [parseNum2] at h
    split at h
    · next hc =>
      injection h with h'
      injection h' with hv hr
      subst hv; subst hr
      exact ⟨hc.2.2.1, hc.2.2.2, Or.inr ⟨c1, c2, rfl, hc.1, hc.2.1, rfl⟩⟩
    · split at h
      · next hc =>
        injection h with h'
        injection h' with hv hr
        subst hv; subst hr
        exact ⟨hc.2.1, hc.2.2, Or.inl ⟨c1, rfl, hc.1, rfl⟩⟩
      · cases h

/-- Inversion of `parseLit`. -/
theorem parseLit_eq_some {c : Char} {l r : List Char} (h : parseLit c l = some r) :
    l = c :: r := by
  match l with
  | [] => simp [parseLit] at h
  | x :: rest =>
    rw [parseLit] at h
    split at h
    · next hx =>
      injection h with h'
      rw [hx, h']
    · cases h

/-- Inversion of `expectEnd`. -/
theorem expectEnd_eq_some {l : List Char} {u : Unit} (h : expectEnd l = some u) :
    l = [] := by
  rw [expectEnd] at h
  split at h
  · next he => exact List.isEmpty_iff.mp he
  · cases h

/-- `%Y` cannot match when a slash occupies the second position. -/
theorem parseYear4_digit_slash {x : Char} (hx : isDigitChar x = true) (R : List Char) :
    parseYear4 (x :: '/' :: R) = none := by
  have h : isDigitChar '/' = false := by decide
  simp [parseYear4, parseDigit, hx, h]

/-- `%Y` cannot match when a slash occupies the third position. -/
theorem parseYear4_digit2_slash {x y : Char} (hx : isDigitChar x = true)
    (hy : isDigitChar y = true) (R : List Char) :
    parseYear4 (x :: y :: '/' :: R) = none := by
  have h : isDigitChar '/' = false := by decide
  simp [parseYear4, parseDigit, hx, hy, h]

/-- No month name matches an input that starts with a digit. -/
theorem parseMonthFrom_digit {x : Char} (hx : isDigitChar x = true) (xs : List Char) :
    ∀ (i : Nat) (names : List (List Char)),
      (∀ n ∈ names, ∃ c cs, n = c :: cs ∧ isDigitChar c = false) →
      parseMonthFrom i names (x :: xs) = none := by
  intro i names
  induction names generalizing i with
  | nil => intro _; rfl
  | cons n ns ih =>
    intro hn
    obtain ⟨c, cs, rfl, hcd⟩ := hn n (List.mem_cons_self _ _)
    have hne : lowerChar x ≠ c := by
      rw [lowerChar_digit hx]
      rintro rfl
      rw [hx] at hcd
      cases hcd
    rw [parseMonthFrom]
    rw [show matchCI (c :: cs) (x :: xs) = none from by simp [matchCI, hne]]
    exact ih (i + 1) (fun n hn' => hn n (List.mem_cons_of_mem _ hn'))

/-- `%B` cannot match an input that starts with a digit. -/
theorem parseMonthFull_digit {x : Char} (hx : isDigitChar x = true) (xs : List Char) :
    parseMonthFull (x :: xs) = none := by
  refine parseMonthFrom_digit hx xs 1 monthNamesFull ?_
  intro n hn
  simp only [monthNamesFull, List.mem_cons, List.not_mem_nil, or_false] at hn
  rcases hn with rfl | rfl | rfl | rfl | rfl | rfl | rfl | rfl | rfl | rfl | rfl | rfl <;>
    exact ⟨_, _, rfl, by decide⟩

/-- `%b` cannot match an input that starts with a digit. -/
theorem parseMonthAbbr_digit {x : Char} (hx : isDigitChar x = true) (xs : List Char) :
    parseMonthAbbr (x :: xs) = none := by
  refine parseMonthFrom_digit hx xs 1 monthNamesAbbr ?_
  intro n hn
  simp only [monthNamesAbbr, List.mem_cons, List.not_mem_nil, or_false] at hn
  rcases hn with rfl | rfl | rfl | rfl | rfl | rfl | rfl | rfl | rfl | rfl | rfl | rfl <;>
    exact ⟨_, _, rfl, by decide⟩

/-- A numeric directive on `digit, slash, ...` consumes the one digit. -/
theorem parseNum2_digit_slash {lo hi : Nat} {x : Char} (hx : isDigitChar x = true)
    (h1 : lo ≤ digitVal x) (h2 : digitVal x ≤ hi) (R : List Char) :
    parseNum2 lo hi (x :: '/' :: R) = some (digitVal x, '/' :: R) := by
  have hsl : isDigitChar '/' = false := by decide
  simp [parseNum2, hsl, hx, h1, h2]

/-- A numeric directive on `digit, digit, slash, ...` consumes both digits
when their value is in range. -/
theorem parseNum2_digit2_slash {lo hi : Nat} {x y : Char} (hx : isDigitChar x = true)
    (hy : isDigitChar y = true) (h1 : lo ≤ digitVal x * 10 + digitVal y)
    (h2 : digitVal x * 10 + digitVal y ≤ hi) (R : List Char) :
    parseNum2 lo hi (x :: y :: '/' :: R) =
      some (digitVal x * 10 + digitVal y, '/' :: R) := by
  simp [parseNum2, hx, hy, h1, h2]

/-- The three `%Y`-first formats fail when `%Y` fails. -/
theorem strptime_yfirst_none (s : String) (h : parseYear4 s.data = none) :
    strptime s .ymd = none ∧ strptime s .ymdHMS = none ∧ strptime s .ymdHMSZ = none := by
  refine ⟨?_, ?_, ?_⟩ <;> (rw [strptime, h]; rfl)

/-- The two `%d`-first formats fail when `%d` is followed by a slash
instead of whitespace. -/
theorem strptime_dfirst_none (s : String) (v : Nat) (l : List Char)
    (h : parseNum2 1 31 s.data = some (v, '/' :: l)) :
    strptime s .dBY = none ∧ strptime s .dbY = none := by
  have hws : parseWs ('/' :: l) = none := by
    rw [parseWs, if_neg]
    rw [show pyIsSpace '/' = false from by decide]
    exact Bool.false_ne_true
  constructor
  · rw [strptime, h]
    simp only [Option.bind_eq_bind', Option.some_bind, hws, Option.none_bind]
  · rw [strptime, h]
    simp only [Option.bind_eq_bind', Option.some_bind, hws, Option.none_bind]

/-- A string whose first and last characters are not whitespace is
unchanged by stripping. -/
theorem pyStrip_of_ends {x z : Char} {m : List Char} (hx : pyIsSpace x = false)
    (hz : pyIsSpace z = false) :
    pyStrip ⟨x :: m ++ [z]⟩ = ⟨x :: m ++ [z]⟩ := by
  unfold pyStrip
  congr 1
  rw [show (String.mk (x :: m ++ [z])).data = (x :: m) ++ [z] from rfl]
  rw [List.cons_append]
  rw [List.dropWhile_cons, if_neg (by rw [hx]; exact Bool.false_ne_true)]
  rw [show (x :: (m ++ [z])).reverse = z :: (m.reverse ++ [x]) from by simp]
  rw [List.dropWhile_cons, if_neg (by rw [hz]; exact Bool.false_ne_true)]
  simp

/-- C9: a date string accepted by both slash-delimited formats is resolved
by `_parse_date` to the `%m/%d/%Y` (month-first, US) interpretation,
because that pattern precedes `%d/%m/%Y` in the format list. -/
theorem slash_date_month_first (s : String) (d1 d2 : DateTime)
    (h1 : strptime s .mdY = some d1) (_h2 : strptime s .dmY = some d2) :
    parse_date s = some d1 := by
  obtain ⟨sd⟩ := s
  have hmd := h1
  simp only [strptime] at hmd
  obtain ⟨⟨mv, l1⟩, hA, hmd⟩ := option_bind_some hmd
  dsimp only at hmd
  obtain ⟨l2, hB, hmd⟩ := option_bind_some hmd
  obtain ⟨⟨dv, l3⟩, hC, hmd⟩ := option_bind_some hmd
  dsimp only at hmd
  obtain ⟨l4, hD, hmd⟩ := option_bind_some hmd
  obtain ⟨⟨yv, l5⟩, hE, hmd⟩ := option_bind_some hmd
  dsimp only at hmd
  obtain ⟨u, hF, -⟩ := option_bind_some hmd
  have hl5 : l5 = [] := expectEnd_eq_some hF
  subst hl5
  have hl1 : l1 = '/' :: l2 := parseLit_eq_some hB
  have hl3 : l3 = '/' :: l4 := parseLit_eq_some hD
  obtain ⟨c1, c2, c3, c4, hl4, hc1, hc2, hc3, hc4⟩ := parseYear4_eq_some hE
  obtain ⟨hm1, hm12, hmshape⟩ := parseNum2_eq_some hA
  obtain ⟨-, -, hdshape⟩ := parseNum2_eq_some hC
  -- the shape of the day segment: one or two digits followed by `'/' :: l4`
  have hl2decomp : ∃ dp : List Char, l2 = dp ++ '/' :: l4 ∧ dp ≠ [] ∧
      ∃ dh dt, dp = dh :: dt ∧ isDigitChar dh = true := by
    rcases hdshape with ⟨c, hc, hcd, -⟩ | ⟨ca, cb, hc, hcad, -, -⟩
    · exact ⟨[c], by rw [hc, hl3]; rfl, by simp, c, [], rfl, hcd⟩
    · exact ⟨[ca, cb], by rw [hc, hl3]; rfl, by simp, ca, [cb], rfl, hcad⟩
  obtain ⟨dp, hl2, -, dh, dt, hdp, -⟩ := hl2decomp
  -- case split on the month segment being one or two digits
  rcases hmshape with ⟨x, hsd, hxd, hveq⟩ | ⟨x, y, hsd, hxd, hyd, hveq⟩
  · rw [hl1, hl2, hdp] at hsd
    have hy4 : parseYear4 sd = none := by
      rw [hsd]; exact parseYear4_digit_slash hxd _
    have hBn : parseMonthFull sd = none := by rw [hsd]; exact parseMonthFull_digit hxd _
    have hbn : parseMonthAbbr sd = none := by rw [hsd]; exact parseMonthAbbr_digit hxd _
    have hd31 : parseNum2 1 31 sd = some (digitVal x, '/' :: (dh :: dt ++ '/' :: l4)) := by
      rw [hsd]
      exact parseNum2_digit_slash hxd (by omega) (by omega) _
    obtain ⟨hy1, hy2, hy3⟩ := strptime_yfirst_none ⟨sd⟩ hy4
    obtain ⟨hdB, hdb⟩ := strptime_dfirst_none ⟨sd⟩ _ _ hd31
    have hBn' : strptime ⟨sd⟩ .BdY = none := by rw [strptime, hBn]; rfl
    have hbn' : strptime ⟨sd⟩ .bdY = none := by rw [strptime, hbn]; rfl
    have hne : (⟨sd⟩ : String) ≠ "" := by
      intro he
      have hd : sd = [] := congrArg String.data he
      rw [hd] at hsd
      exact absurd hsd (by simp)
    have hstrip : pyStrip ⟨sd⟩ = ⟨sd⟩ := by
      have hform : sd = x :: ('/' :: (dh :: dt) ++ '/' :: [c1, c2, c3]) ++ [c4] := by
        rw [hsd, hl4]; simp
      rw [hform]
      exact pyStrip_of_ends (pyIsSpace_digit hxd) (pyIsSpace_digit hc4)
    rw [parse_date, if_neg hne, hstrip]
    simp only [dateFormats, tryFormats, hy1, hy2, hy3, hBn', hbn', hdB, hdb, h1]
  · rw [hl1, hl2, hdp] at hsd
    have hy4 : parseYear4 sd = none := by
      rw [hsd]; exact parseYear4_digit2_slash hxd hyd _
    have hBn : parseMonthFull sd = none := by rw [hsd]; exact parseMonthFull_digit hxd _
    have hbn : parseMonthAbbr sd = none := by rw [hsd]; exact parseMonthAbbr_digit hxd _
    have hd31 : parseNum2 1 31 sd =
        some (digitVal x * 10 + digitVal y, '/' :: (dh :: dt ++ '/' :: l4)) := by
      rw [hsd]
      exact parseNum2_digit2_slash hxd hyd (by omega) (by omega) _
    obtain ⟨hy1, hy2, hy3⟩ := strptime_yfirst_none ⟨sd⟩ hy4
    obtain ⟨hdB, hdb⟩ := strptime_dfirst_none ⟨sd⟩ _ _ hd31
    have hBn' : strptime ⟨sd⟩ .BdY = none := by rw [strptime, hBn]; rfl
    have hbn' : strptime ⟨sd⟩ .bdY = none := by rw [strptime, hbn]; rfl
    have hne : (⟨sd⟩ : String) ≠ "" := by
      intro he
      have hd : sd = [] := congrArg String.data he
      rw [hd] at hsd
      exact absurd hsd (by simp)
    have hstrip : pyStrip ⟨sd⟩ = ⟨sd⟩ := by
      have hform : sd = x :: (y :: '/' :: (dh :: dt) ++ '/' :: [c1, c2, c3]) ++ [c4] := by
        rw [hsd, hl4]; simp
      rw [hform]
      exact pyStrip_of_ends (pyIsSpace_digit hxd) (pyIsSpace_digit hc4)
    rw [parse_date, if_neg hne, hstrip]
    simp only [dateFormats, tryFormats, hy1, hy2, hy3, hBn', hbn', hdB, hdb, h1]

/-- Witness for C9: `03/04/2024` is valid under both slash formats and
parses as March 4, not April 3. -/
theorem slash_date_month_first_witness :
    strptime "03/04/2024" .mdY = some ⟨2024, 3, 4, 0, 0, 0⟩ ∧
    strptime "03/04/2024" .dmY = some ⟨2024, 4, 3, 0, 0, 0⟩ ∧
    parse_date "03/04/2024" = some ⟨2024, 3, 4, 0, 0, 0⟩ :=
  ⟨by decide, by decide,
   slash_date_month_first "03/04/2024" ⟨2024, 3, 4, 0, 0, 0⟩ ⟨2024, 4, 3, 0, 0, 0⟩
     (by decide) (by decide)⟩

end Scraper
